import Mathlib

/-!
Verification development for the `steam_find` crate (`src/lib.rs`).

The VDF value tree, the parser (`vdf_parse` / `parse_str`), the lookup and
accessor operations on `Value`, and the two discovery operations
(`steam_apps`, `get_steam_app`) are shallowly embedded below.  File-system
access is abstracted as an explicit environment of collaborator functions
(`Env`), matching the I/O calls of the source (`steam_dir`,
`fs::read_to_string`, `fs::read_dir`).  Rust panics (`unwrap` on an empty
stack, `unimplemented!` on an unknown escape) are modelled as a distinct
`Outcome.panicked` result, `io::Error` returns as `Outcome.err`.
-/

set_option maxRecDepth 4000

/-- ASCII lower-casing of one character, as used by
`str::eq_ignore_ascii_case` in `lib.rs:208`. -/
def lowerAscii (c : Char) : Char :=
  if 'A' ≤ c ∧ c ≤ 'Z' then Char.ofNat (c.toNat + 32) else c

/-- Model of `str::eq_ignore_ascii_case` (`lib.rs:208`): two strings are
equal ignoring ASCII case iff their ASCII-lowercased character sequences
coincide. -/
def eqic (a b : String) : Bool :=
  decide (a.data.map lowerAscii = b.data.map lowerAscii)

/-- Lexicographic less-or-equal on character lists: the order underlying
`Ord for str` used by `sort_unstable_by(|a, b| a.0.cmp(&b.0))` in
`lib.rs:276` and `lib.rs:285` (UTF-8 byte order coincides with codepoint
order). -/
def listLe : List Char → List Char → Bool
  | [], _ => true
  | _ :: _, [] => false
  | a :: as, b :: bs =>
    if a < b then true
    else if b < a then false
    else listLe as bs

/-- Lexicographic less-or-equal on strings. -/
def strLe (a b : String) : Bool := listLe a.data b.data

/-- Boolean chain-sortedness of a list under a comparator. -/
def sortedB (le : α → α → Bool) : List α → Bool
  | [] => true
  | [_] => true
  | a :: b :: rest => le a b && sortedB le (b :: rest)

/-- Ordered insertion used to model the comparison sort
`sort_unstable_by`. -/
def insertB (le : α → α → Bool) (x : α) : List α → List α
  | [] => [x]
  | y :: ys => if le x y then x :: y :: ys else y :: insertB le x ys

/-- Comparison sort (insertion sort) used to model `sort_unstable_by`:
the result is ordered by `le` and is a permutation of the input. -/
def sortB (le : α → α → Bool) : List α → List α
  | [] => []
  | x :: xs => insertB le x (sortB le xs)

/-- The parsed VDF value tree, `enum Value` of `lib.rs:172`: an ordered
key/value map, a string leaf (escape sequences already decoded; the
`Cow` borrowed/owned distinction is erased since both denote the same
text), or the `Null` sentinel. -/
inductive Value where
  | map (entries : List (String × Value))
  | str (s : String)
  | null

/-- Direct children of a map. -/
abbrev Entries := List (String × Value)

/-- Key comparator for sorting map entries (`a.0.cmp(&b.0)`). -/
def keyLe (a b : String × Value) : Bool := strLe a.1 b.1

/-- `Value::as_str` (`lib.rs:179`). -/
def asStr : Value → Option String
  | Value.str s => some s
  | _ => none

/-- Digit list to numeric value, most significant first. -/
def digitsVal (ds : List Char) : Nat :=
  ds.foldl (fun acc c => acc * 10 + (c.toNat - 48)) 0

/-- Model of `i64::from_str_radix(s, 10)` (`lib.rs:188`): an optional
sign followed by at least one decimal digit, with the result required to
fit in `i64`; anything else is `none`. -/
def parseI64 (s : String) : Option Int :=
  let p : Int × List Char :=
    match s.data with
    | '+' :: r => (1, r)
    | '-' :: r => (-1, r)
    | cs => (1, cs)
  if p.2 = [] then none
  else if p.2.all Char.isDigit then
    let v : Int := p.1 * (digitsVal p.2 : Nat)
    if -(2 ^ 63) ≤ v ∧ v ≤ 2 ^ 63 - 1 then some v else none
  else none

/-- Model of `u64::from_str_radix(s, 10)` (`lib.rs:132`): an optional
sign followed by at least one decimal digit, fitting in `u64`; a `-`
sign is only accepted when the value is zero. -/
def parseU64 (s : String) : Option Nat :=
  let p : Bool × List Char :=
    match s.data with
    | '+' :: r => (false, r)
    | '-' :: r => (true, r)
    | cs => (false, cs)
  if p.2 = [] then none
  else if p.2.all Char.isDigit then
    let v : Nat := digitsVal p.2
    if p.1 then (if v = 0 then some 0 else none)
    else if v < 2 ^ 64 then some v else none
  else none

/-- `Value::as_int` (`lib.rs:186`). -/
def asInt : Value → Option Int
  | Value.str s => parseI64 s
  | _ => none

/-- The `as u64` cast applied to an `i64` (`lib.rs:109` etc.): two's
complement reinterpretation, i.e. reduction modulo `2 ^ 64`. -/
def toU64 (i : Int) : Nat := (i % (2 ^ 64 : Int)).toNat

/-- Linear scan of a map's entries for the first ASCII
case-insensitive key match (`Index for Value`, `lib.rs:204`). -/
def findIC : Entries → String → Value
  | [], _ => Value.null
  | (k, v) :: rest, key => if eqic k key then v else findIC rest key

/-- `Index for Value` (`lib.rs:204`): on a `Map`, the first entry whose
key matches ASCII case-insensitively, else `Null`; on `Str`/`Null`,
`Null`. -/
def indexV : Value → String → Value
  | Value.map es, key => findIC es key
  | _, _ => Value.null

/-- `Value::iter` (`lib.rs:193`): the direct children of a `Map`, the
empty sequence otherwise. -/
def iterV : Value → Entries
  | Value.map es => es
  | _ => []

/-- The `'\x7b'` character (left brace), named to keep brace characters
out of literals. -/
def lbrace : Char := Char.ofNat 123

/-- The `'\x7d'` character (right brace). -/
def rbrace : Char := Char.ofNat 125

/-- `char::is_ascii_whitespace` (`lib.rs:258`): space, tab, newline,
form feed, carriage return. -/
def isAsciiWhitespace (c : Char) : Bool :=
  c = ' ' || c = '\t' || c = '\n' || c = '\x0c' || c = '\r'

/-- `parse_str` (`lib.rs:217`): consume characters up to the next
unescaped `"` (or the end of input), decoding the escapes
`\"`, `\r`, `\n`, `\\`; `acc` is the text decoded so far and `esc`
records a pending backslash.  An unrecognized escape hits
`unimplemented!` in the source, modelled as `none`; reaching the end of
input without a closing quote returns the text consumed so far, exactly
as the source's loop does. -/
def parseStr : List Char → Bool → List Char → Option (String × List Char)
  | [], _, acc => some (⟨acc⟩, [])
  | c :: rest, true, acc =>
    if c = '"' then parseStr rest false (acc ++ ['"'])
    else if c = 'r' then parseStr rest false (acc ++ ['\r'])
    else if c = 'n' then parseStr rest false (acc ++ ['\n'])
    else if c = '\\' then parseStr rest false (acc ++ ['\\'])
    else none
  | c :: rest, false, acc =>
    if c = '"' then some (⟨acc⟩, rest)
    else if c = '\\' then parseStr rest true acc
    else parseStr rest false (acc ++ [c])

/-- Error values carried by `io::Result` in the source: the
`ErrorKind::NotFound` and `ErrorKind::InvalidData` errors it constructs
itself, and opaque I/O errors from the collaborators. -/
inductive IOErr where
  | notFound (msg : String)
  | invalidData (msg : String)
  | ioErr (msg : String)
deriving DecidableEq

/-- Result of running a piece of the source: a value, an `io::Error`,
or a Rust panic (`unwrap` failure / `unimplemented!`). -/
inductive Outcome (α : Type) where
  | ok (a : α)
  | err (e : IOErr)
  | panicked

/-- The `while let Some(start) = stream.next()` loop of `vdf_parse`
(`lib.rs:257`–`lib.rs:287`), with the explicit frame stack, the current
map accumulator and the pending key.  `fuel` bounds the number of loop
iterations; each iteration consumes at least one character, so
`vdf_parse` below supplies enough fuel for exhaustion to be
unreachable. -/
def vdfLoop : Nat → List Char → List (Entries × String) → Entries → Option String → Outcome Value
  | _, [], _, m, _ => Outcome.ok (Value.map (sortB keyLe m))
  | 0, _ :: _, _, _, _ => Outcome.panicked
  | fuel + 1, c :: rest, stack, m, key =>
    if isAsciiWhitespace c then vdfLoop fuel rest stack m key
    else
      match key with
      | none =>
        if c = '"' then
          match parseStr rest false [] with
          | none => Outcome.panicked
          | some (s, rest') => vdfLoop fuel rest' stack m (some s)
        else if c = rbrace then
          match stack with
          | [] => Outcome.panicked
          | (parent, k) :: stack' =>
            vdfLoop fuel rest stack' (parent ++ [(k, Value.map m)]) none
        else Outcome.err (IOErr.invalidData "unexpected token while parsing")
      | some k =>
        if c = '"' then
          match parseStr rest false [] with
          | none => Outcome.panicked
          | some (s, rest') =>
            vdfLoop fuel rest' stack (m ++ [(k, Value.str s)]) none
        else if c = lbrace then
          vdfLoop fuel rest ((sortB keyLe m, k) :: stack) [] none
        else Outcome.err (IOErr.invalidData "unexpected token while parsing")

/-- `vdf_parse` (`lib.rs:216`): run the loop from an empty stack, empty
root map and no pending key. -/
def vdf_parse (cs : List Char) : Outcome Value :=
  vdfLoop (cs.length + 1) cs [] [] none

/-- Model of `Path::join` / `PathBuf::push` with one component
(`lib.rs:86`, `lib.rs:92`, `lib.rs:99`, `lib.rs:111`): append with a
`/` separator unless the base is empty or already ends in the
separator. -/
def joinPath (a b : String) : String :=
  if a = "" then b
  else if a.data.getLast? = some '/' then a ++ b
  else a ++ "/" ++ b

/-- Model of `Path::extension` (`lib.rs:102`): the part of the final
path component after its last `.`, provided that dot is embedded (not
the leading character) — so `a.acf` has extension `acf` while `.acf`
and `acf` have none. -/
def extension (p : String) : Option String :=
  let name := (p.data.reverse.takeWhile (fun c => !(c = '/'))).reverse
  let ext := name.reverse.takeWhile (fun c => !(c = '.'))
  if ext.length + 2 ≤ name.length then some ⟨ext.reverse⟩ else none

/-- The external collaborators of the discovery layer: `steam_dir`,
`fs::read_to_string`, and `fs::read_dir` (entry enumeration errors are
folded into the directory listing result). -/
structure Env where
  steamDir : Except IOErr String
  readToString : String → Except IOErr String
  readDir : String → Except IOErr (List String)

/-- Sequencing of outcomes: the `?` operator, with panics also
propagated. -/
def obind : Outcome α → (α → Outcome β) → Outcome β
  | Outcome.ok a, f => f a
  | Outcome.err e, _ => Outcome.err e
  | Outcome.panicked, _ => Outcome.panicked

/-- Lift a collaborator's `Result` into an `Outcome`. -/
def ofExcept : Except IOErr α → Outcome α
  | Except.ok a => Outcome.ok a
  | Except.error e => Outcome.err e

/-- `struct App` (`lib.rs:164`): the record projected out of one
manifest. -/
structure App where
  app_id : Nat
  name : String
  size_on_disk : Nat
  path : String
deriving DecidableEq

/-- The field-extraction closure shared by `steam_apps` (`lib.rs:107`)
and `get_steam_app` (`lib.rs:148`): all four projections must succeed,
otherwise no record is produced. -/
def extractApp (root : String) (state : Value) : Option App :=
  (asInt (indexV state "appid")).bind fun appid =>
    (asInt (indexV state "SizeOnDisk")).bind fun size =>
      (asStr (indexV state "installdir")).bind fun dir =>
        (asStr (indexV state "name")).map fun nm =>
          { app_id := toU64 appid
            name := nm
            size_on_disk := toU64 size
            path := joinPath root dir }

/-- The library-collection loop of `steam_apps` (`lib.rs:90`): each
`libraryfolders` child contributes `<path>/steamapps` when its `path`
field is a string. -/
def collectLibraries : Entries → List String
  | [] => []
  | (_, m) :: rest =>
    match asStr (indexV m "path") with
    | some p => joinPath p "steamapps" :: collectLibraries rest
    | none => collectLibraries rest

/-- The per-file loop of `steam_apps` (`lib.rs:100`–`lib.rs:118`): for
each directory entry with extension `acf`, read and parse it (either
failure propagates via `?`), then keep the record only when field
extraction succeeds. -/
def acfLoop (env : Env) (root : String) : List String → Outcome (List App)
  | [] => Outcome.ok []
  | p :: rest =>
    if extension p = some "acf" then
      obind (ofExcept (env.readToString p)) fun buffer =>
        obind (vdf_parse buffer.data) fun ast =>
          match extractApp root (indexV ast "AppState") with
          | some app =>
            obind (acfLoop env root rest) fun more => Outcome.ok (app :: more)
          | none => acfLoop env root rest
    else acfLoop env root rest

/-- The per-library loop of `steam_apps` (`lib.rs:98`): list each
library's `steamapps` directory (errors propagate) and process its
entries against the library's `common` root. -/
def appsLoop (env : Env) : List String → Outcome (List App)
  | [] => Outcome.ok []
  | path :: rest =>
    obind (ofExcept (env.readDir path)) fun fds =>
      obind (acfLoop env (joinPath path "common") fds) fun here =>
        obind (appsLoop env rest) fun more => Outcome.ok (here ++ more)

/-- Comparator for the final sort of `steam_apps`
(`lib.rs:120`, `a.app_id.cmp(&b.app_id)`). -/
def appLe (a b : App) : Bool := Nat.ble a.app_id b.app_id

/-- `steam_apps` (`lib.rs:83`): read and parse the library index
(failures fatal), collect the library roots, enumerate every `.acf`
manifest, and return the successfully extracted records sorted
ascending by `app_id`. -/
def steam_apps (env : Env) : Outcome (List App) :=
  obind (ofExcept env.steamDir) fun steam =>
    obind (ofExcept (env.readToString
        (joinPath (joinPath steam "steamapps") "libraryfolders.vdf"))) fun buffer =>
      obind (vdf_parse buffer.data) fun lib =>
        obind (appsLoop env
            (collectLibraries (iterV (indexV lib "libraryfolders")))) fun apps =>
          Outcome.ok (sortB appLe apps)

/-- The inner loop of `get_steam_app` over one library's `apps` map
(`lib.rs:131`–`lib.rs:158`).  `none` means "fell through this library,
keep scanning"; `some r` means the source's control flow produced `r`
(an early `return Ok`, a propagated error, or a panic). -/
def appsScan (env : Env) (app_id : Nat) (m : Value) : Entries → Option (Outcome App)
  | [] => none
  | (entryId, _) :: rest =>
    match parseU64 entryId with
    | none => appsScan env app_id m rest
    | some tid =>
      if tid ≠ app_id then appsScan env app_id m rest
      else
        match asStr (indexV m "path") with
        | none => appsScan env app_id m rest
        | some p =>
          match env.readToString
              (p ++ "/steamapps/" ++ "appmanifest_" ++ toString tid ++ ".acf") with
          | Except.error e => some (Outcome.err e)
          | Except.ok buffer =>
            match vdf_parse buffer.data with
            | Outcome.err e => some (Outcome.err e)
            | Outcome.panicked => some Outcome.panicked
            | Outcome.ok ast =>
              match extractApp (p ++ "/steamapps/" ++ "common/")
                  (indexV ast "AppState") with
              | some app => some (Outcome.ok app)
              | none => appsScan env app_id m rest

/-- The outer loop of `get_steam_app` over `libraryfolders` children
(`lib.rs:130`): first library whose scan produces a result wins; if
every library falls through, the call fails with the `NotFound` error
of `lib.rs:160`. -/
def libsScan (env : Env) (app_id : Nat) : Entries → Outcome App
  | [] => Outcome.err (IOErr.notFound "failed to find app")
  | (_, m) :: rest =>
    match appsScan env app_id m (iterV (indexV m "apps")) with
    | some r => r
    | none => libsScan env app_id rest

/-- `get_steam_app` (`lib.rs:124`): read and parse the library index
(failures fatal), then scan the libraries for the requested id. -/
def get_steam_app (env : Env) (app_id : Nat) : Outcome App :=
  obind (ofExcept env.steamDir) fun steam =>
    obind (ofExcept (env.readToString
        (joinPath (joinPath steam "steamapps") "libraryfolders.vdf"))) fun buffer =>
      obind (vdf_parse buffer.data) fun lib =>
        libsScan env app_id (iterV (indexV lib "libraryfolders"))

/-- Fixture: a complete `.acf` manifest text with the four required
fields. -/
def acfText (id size dir nm : String) : String :=
  "\"AppState\" \x7b \"appid\" \"" ++ id ++ "\" \"SizeOnDisk\" \"" ++ size ++
    "\" \"installdir\" \"" ++ dir ++ "\" \"name\" \"" ++ nm ++ "\" \x7d"

/-- Fixture: a manifest text lacking the `SizeOnDisk` field. -/
def acfNoSize (id dir nm : String) : String :=
  "\"AppState\" \x7b \"appid\" \"" ++ id ++
    "\" \"installdir\" \"" ++ dir ++ "\" \"name\" \"" ++ nm ++ "\" \x7d"

/-- Fixture: a manifest text lacking the `name` field. -/
def acfNoName (id size dir : String) : String :=
  "\"AppState\" \x7b \"appid\" \"" ++ id ++ "\" \"SizeOnDisk\" \"" ++ size ++
    "\" \"installdir\" \"" ++ dir ++ "\" \x7d"

/-- Fixture: a library index with one library rooted at `L`. -/
def libIndexOne : String :=
  "\"libraryfolders\" \x7b \"0\" \x7b \"path\" \"L\" \x7d \x7d"

/-- Fixture: a library index with two libraries `L1`, `L2`, both listing
app id `7` in their `apps` maps. -/
def libIndexTwo : String :=
  "\"libraryfolders\" \x7b " ++
    "\"0\" \x7b \"path\" \"L1\" \"apps\" \x7b \"7\" \"x\" \x7d \x7d " ++
    "\"1\" \x7b \"path\" \"L2\" \"apps\" \x7b \"7\" \"x\" \x7d \x7d \x7d"

/-- Fixture environment for bulk enumeration: one library holding three
`.acf` files, of which `b.acf` lacks `SizeOnDisk`; encounter order puts
id 30 before id 10. -/
def envC7 : Env where
  steamDir := Except.ok "S"
  readToString p :=
    if p = "S/steamapps/libraryfolders.vdf" then Except.ok libIndexOne
    else if p = "L/steamapps/a.acf" then Except.ok (acfText "30" "5" "g30" "G30")
    else if p = "L/steamapps/b.acf" then Except.ok (acfNoSize "20" "g20" "G20")
    else if p = "L/steamapps/c.acf" then Except.ok (acfText "10" "7" "g10" "G10")
    else Except.error (IOErr.ioErr "io")
  readDir p :=
    if p = "L/steamapps" then
      Except.ok ["L/steamapps/a.acf", "L/steamapps/b.acf", "L/steamapps/c.acf"]
    else Except.error (IOErr.ioErr "io")


/-- Fixture environment: one library with two `.acf` files, the second
of which cannot be read. -/
def envC4read : Env where
  steamDir := Except.ok "S"
  readToString p :=
    if p = "S/steamapps/libraryfolders.vdf" then Except.ok libIndexOne
    else if p = "L/steamapps/a.acf" then Except.ok (acfText "30" "5" "g30" "G30")
    else Except.error (IOErr.ioErr "disk")
  readDir p :=
    if p = "L/steamapps" then
      Except.ok ["L/steamapps/a.acf", "L/steamapps/b.acf"]
    else Except.error (IOErr.ioErr "io")

/-- Fixture environment: one library with two `.acf` files, the second
of which holds malformed VDF text. -/
def envC4parse : Env where
  steamDir := Except.ok "S"
  readToString p :=
    if p = "S/steamapps/libraryfolders.vdf" then Except.ok libIndexOne
    else if p = "L/steamapps/a.acf" then Except.ok (acfText "30" "5" "g30" "G30")
    else if p = "L/steamapps/b.acf" then Except.ok "oops"
    else Except.error (IOErr.ioErr "io")
  readDir p :=
    if p = "L/steamapps" then
      Except.ok ["L/steamapps/a.acf", "L/steamapps/b.acf"]
    else Except.error (IOErr.ioErr "io")

/-- Fixture environment: the library index file itself cannot be
read. -/
def envC4lib : Env where
  steamDir := Except.ok "S"
  readToString _ := Except.error (IOErr.ioErr "disk")
  readDir _ := Except.error (IOErr.ioErr "io")

/-- Fixture environment for single-app lookup: both libraries list app
id 7; the first library's manifest lacks `name`, the second's is
complete. -/
def envC5 : Env where
  steamDir := Except.ok "S"
  readToString p :=
    if p = "S/steamapps/libraryfolders.vdf" then Except.ok libIndexTwo
    else if p = "L1/steamapps/appmanifest_7.acf" then
      Except.ok (acfNoName "7" "5" "d7")
    else if p = "L2/steamapps/appmanifest_7.acf" then
      Except.ok (acfText "7" "9" "e7" "Seven")
    else Except.error (IOErr.ioErr "io")
  readDir _ := Except.error (IOErr.ioErr "io")

/-- Fixture environment for single-app lookup: both libraries list app
id 7 with complete but different manifests. -/
def envC5first : Env where
  steamDir := Except.ok "S"
  readToString p :=
    if p = "S/steamapps/libraryfolders.vdf" then Except.ok libIndexTwo
    else if p = "L1/steamapps/appmanifest_7.acf" then
      Except.ok (acfText "7" "5" "d7" "First")
    else if p = "L2/steamapps/appmanifest_7.acf" then
      Except.ok (acfText "7" "9" "e7" "Second")
    else Except.error (IOErr.ioErr "io")
  readDir _ := Except.error (IOErr.ioErr "io")

/-- Fixture environment for bulk enumeration with a negative `appid`
and a negative `SizeOnDisk` in the only manifest. -/
def envC10a : Env where
  steamDir := Except.ok "S"
  readToString p :=
    if p = "S/steamapps/libraryfolders.vdf" then Except.ok libIndexOne
    else if p = "L/steamapps/a.acf" then Except.ok (acfText "-1" "-2" "g" "Neg")
    else Except.error (IOErr.ioErr "io")
  readDir p :=
    if p = "L/steamapps" then Except.ok ["L/steamapps/a.acf"]
    else Except.error (IOErr.ioErr "io")

/-- Fixture environment for single-app lookup where the matched
manifest's `appid` field is the negative string `-1`. -/
def envC10b : Env where
  steamDir := Except.ok "S"
  readToString p :=
    if p = "S/steamapps/libraryfolders.vdf" then Except.ok libIndexTwo
    else if p = "L1/steamapps/appmanifest_7.acf" then
      Except.ok (acfText "-1" "4" "d7" "Neg")
    else Except.error (IOErr.ioErr "io")
  readDir _ := Except.error (IOErr.ioErr "io")

/-- Fixture environment: one library with two `.acf` files, the second
of which parses but lacks the `installdir` field. -/
def envC4skip : Env where
  steamDir := Except.ok "S"
  readToString p :=
    if p = "S/steamapps/libraryfolders.vdf" then Except.ok libIndexOne
    else if p = "L/steamapps/a.acf" then Except.ok (acfText "30" "5" "g30" "G30")
    else if p = "L/steamapps/b.acf" then
      Except.ok ("\"AppState\" \x7b \"appid\" \"20\" \"SizeOnDisk\" \"5\" \"name\" \"G20\" \x7d")
    else Except.error (IOErr.ioErr "io")
  readDir p :=
    if p = "L/steamapps" then
      Except.ok ["L/steamapps/a.acf", "L/steamapps/b.acf"]
    else Except.error (IOErr.ioErr "io")









theorem listLe_total : ∀ a b : List Char, listLe a b = false → listLe b a = true := by
  intro a
  induction a with
  | nil => intro b h; simp [listLe] at h
  | cons x xs ih =>
    intro b h
    cases b with
    | nil => simp [listLe]
    | cons y ys =>
      simp only [listLe] at h ⊢
      by_cases hxy : x < y
      · simp [hxy] at h
      · by_cases hyx : y < x
        · simp [hxy, hyx]
        · simp [hxy, hyx] at h ⊢
          exact ih ys h

theorem keyLe_total (a b : String × Value) : keyLe a b = false → keyLe b a = true := by
  intro h
  exact listLe_total _ _ h

theorem appLe_total (a b : App) : appLe a b = false → appLe b a = true := by
  intro h
  simp only [appLe] at h
  simp only [appLe, Nat.ble_eq]
  have h1 : ¬ a.app_id ≤ b.app_id := by
    rw [← Nat.ble_eq]
    simp [h]
  omega

theorem sortedB_insertB (le : α → α → Bool)
    (htot : ∀ a b, le a b = false → le b a = true) (x : α) :
    ∀ l, sortedB le l = true → sortedB le (insertB le x l) = true := by
  intro l
  induction l with
  | nil => intro _; simp [insertB, sortedB]
  | cons y ys ih =>
    intro hs
    by_cases hxy : le x y = true
    · have hs' : sortedB le (y :: ys) = true := hs
      simp [insertB, hxy, sortedB, hs']
    · have hxy' : le x y = false := by
        cases hb : le x y
        · rfl
        · exact absurd hb hxy
      have hyx : le y x = true := htot x y hxy'
      cases ys with
      | nil => simp [insertB, hxy', sortedB, hyx]
      | cons z zs =>
        have hyz : le y z = true := by
          have := hs
          simp [sortedB] at this
          exact this.1
        have hszs : sortedB le (z :: zs) = true := by
          have := hs
          simp [sortedB] at this
          exact this.2
        by_cases hxz : le x z = true
        · simp [insertB, hxy', hxz, sortedB, hyx, hszs]
        · have hxz' : le x z = false := by
            cases hb : le x z
            · rfl
            · exact absurd hb hxz
          have ihz := ih hszs
          simp only [insertB, hxz', if_neg, Bool.false_eq_true,
            not_false_eq_true] at ihz ⊢
          simp only [if_neg (by simp [hxy'] : ¬ le x y = true)]
          simp [sortedB, hyz]
          simpa using ihz

theorem sortedB_sortB (le : α → α → Bool)
    (htot : ∀ a b, le a b = false → le b a = true) :
    ∀ l, sortedB le (sortB le l) = true := by
  intro l
  induction l with
  | nil => simp [sortB, sortedB]
  | cons x xs ih => exact sortedB_insertB le htot x _ ih

theorem obind_ok {α β : Type} {o : Outcome α} {f : α → Outcome β} {b : β}
    (h : obind o f = Outcome.ok b) : ∃ a, o = Outcome.ok a ∧ f a = Outcome.ok b := by
  cases o with
  | ok a => exact ⟨a, rfl, h⟩
  | err e => simp [obind] at h
  | panicked => simp [obind] at h

/-- Every successful `vdf_parse` result is a map produced by the final
key sort. -/
theorem vdfLoop_ok_shape :
    ∀ fuel s stack m k v, vdfLoop fuel s stack m k = Outcome.ok v →
      ∃ es, v = Value.map (sortB keyLe es) := by
  intro fuel
  induction fuel with
  | zero =>
    intro s stack m k v h
    cases s with
    | nil =>
      simp only [vdfLoop, Outcome.ok.injEq] at h
      exact ⟨m, h.symm⟩
    | cons c rest => simp [vdfLoop] at h
  | succ n ih =>
    intro s stack m k v h
    cases s with
    | nil =>
      simp only [vdfLoop, Outcome.ok.injEq] at h
      exact ⟨m, h.symm⟩
    | cons c rest =>
      simp only [vdfLoop] at h
      split at h
      · exact ih _ _ _ _ _ h
      · cases k with
        | none =>
          dsimp only at h
          repeat' split at h
          all_goals first
            | exact ih _ _ _ _ _ h
            | simp_all
        | some kk =>
          dsimp only at h
          repeat' split at h
          all_goals first
            | exact ih _ _ _ _ _ h
            | simp_all

/-- Every error `vdf_parse` ever returns is the single invalid-data
error of `lib.rs:270` / `lib.rs:279`. -/
theorem vdfLoop_err_msg :
    ∀ fuel s stack m k e, vdfLoop fuel s stack m k = Outcome.err e →
      e = IOErr.invalidData "unexpected token while parsing" := by
  intro fuel
  induction fuel with
  | zero =>
    intro s stack m k e h
    cases s <;> simp [vdfLoop] at h
  | succ n ih =>
    intro s stack m k e h
    cases s with
    | nil => simp [vdfLoop] at h
    | cons c rest =>
      simp only [vdfLoop] at h
      split at h
      · exact ih _ _ _ _ _ h
      · cases k with
        | none =>
          dsimp only at h
          repeat' split at h
          all_goals first
            | exact ih _ _ _ _ _ h
            | simp_all
        | some kk =>
          dsimp only at h
          repeat' split at h
          all_goals first
            | exact ih _ _ _ _ _ h
            | simp_all

theorem eqic_eq (a b : String) :
    eqic a b = true ↔ a.data.map lowerAscii = b.data.map lowerAscii := by
  simp [eqic]

theorem findIC_append_first (key k : String) (v : Value) :
    ∀ pre post, eqic k key = true → (∀ p ∈ pre, eqic p.1 key = false) →
      findIC (pre ++ (k, v) :: post) key = v := by
  intro pre
  induction pre with
  | nil =>
    intro post hk _
    simp [findIC, hk]
  | cons q qs ih =>
    intro post hk hpre
    obtain ⟨qk, qv⟩ := q
    have hq : eqic qk key = false := hpre (qk, qv) (by simp)
    simp [findIC, hq]
    exact ih post hk (fun p hp => hpre p (by simp [hp]))

theorem findIC_not_mem (key : String) :
    ∀ es : Entries, (∀ p ∈ es, eqic p.1 key = false) →
      findIC es key = Value.null := by
  intro es
  induction es with
  | nil => intro _; rfl
  | cons q qs ih =>
    intro hes
    obtain ⟨qk, qv⟩ := q
    have hq : eqic qk key = false := hes (qk, qv) (by simp)
    simp [findIC, hq]
    exact ih (fun p hp => hes p (by simp [hp]))

/-- On a map whose keys are pairwise distinct under ASCII
case-insensitive comparison, lookup by any case variant of a present
key returns that key's value. -/
theorem findIC_mem_distinct (key k : String) (v : Value) :
    ∀ es : Entries, List.Pairwise (fun a b => eqic a.1 b.1 = false) es →
      (k, v) ∈ es → eqic k key = true → findIC es key = v := by
  intro es
  induction es with
  | nil =>
    intro _ hmem _
    simp at hmem
  | cons q qs ih =>
    intro hdist hmem hk
    obtain ⟨qk, qv⟩ := q
    rcases List.mem_cons.mp hmem with heq | htail
    · obtain ⟨h1, h2⟩ := Prod.mk.injEq .. ▸ heq
      subst h1; subst h2
      simp [findIC, hk]
    · have hqk : eqic qk k = false :=
        (List.pairwise_cons.mp hdist).1 (k, v) htail
      have hq : eqic qk key = false := by
        cases hqb : eqic qk key with
        | false => rfl
        | true =>
          have h1 := (eqic_eq qk key).mp hqb
          have h2 := (eqic_eq k key).mp hk
          have h3 : eqic qk k = true := (eqic_eq qk k).mpr (h1.trans h2.symm)
          rw [h3] at hqk
          cases hqk
      simp [findIC, hq]
      exact ih (List.pairwise_cons.mp hdist).2 htail hk

/-- When the remaining input holds no quote and no backslash,
`parse_str` consumes all of it and succeeds with the whole text. -/
theorem parseStr_runs_to_end :
    ∀ cs acc, '"' ∉ cs → '\\' ∉ cs →
      parseStr cs false acc = some (⟨acc ++ cs⟩, []) := by
  intro cs
  induction cs with
  | nil =>
    intro acc _ _
    simp [parseStr]
  | cons c rest ih =>
    intro acc hq hb
    have hcq : ¬ c = '"' := fun h => hq (by simp [h])
    have hcb : ¬ c = '\\' := fun h => hb (by simp [h])
    simp only [parseStr, if_neg hcq, if_neg hcb]
    have := ih (acc ++ [c]) (fun h => hq (by simp [h])) (fun h => hb (by simp [h]))
    simpa [List.append_assoc] using this

/-- Any successful bulk enumeration is sorted ascending by `app_id`. -/
theorem steam_apps_ok_sorted (env : Env) (l : List App)
    (h : steam_apps env = Outcome.ok l) : sortedB appLe l = true := by
  unfold steam_apps at h
  obtain ⟨steam, _, h⟩ := obind_ok h
  obtain ⟨buf, _, h⟩ := obind_ok h
  obtain ⟨lib, _, h⟩ := obind_ok h
  obtain ⟨apps, _, h⟩ := obind_ok h
  have hl : l = sortB appLe apps := by
    simpa [Outcome.ok.injEq] using h.symm
  rw [hl]
  exact sortedB_sortB appLe appLe_total apps

/-- C1, counterexample: the input `"z" { "b" "1" "a" "2" }` parses
successfully, yet iterating the nested map built for key `z` yields its
keys in the order `b`, `a` — not ascending lexicographic order.  Nested
maps are not sorted when their closing delimiter is reached; only a
parent map is sorted (when a later `{` opens inside it) and the root
map (at end of input). -/
theorem c1_counterexample :
    vdf_parse ("\"z\" \x7b \"b\" \"1\" \"a\" \"2\" \x7d".data) =
      Outcome.ok (Value.map
        [("z", Value.map [("b", Value.str "1"), ("a", Value.str "2")])])
    ∧ sortedB keyLe
        (iterV (indexV
          (Value.map
            [("z", Value.map [("b", Value.str "1"), ("a", Value.str "2")])])
          "z")) = false :=
  ⟨rfl, rfl⟩

/-- C1, amended: for every accepted input the ROOT map returned by
`vdf_parse` has its direct-child entries in ascending lexicographic
order by key (nested maps need not be sorted); and indexing any map
whose keys are pairwise distinct under ASCII case-insensitive
comparison by any case variant of a present key returns that key's
value. -/
theorem c1_root_sorted_lookup :
    (∀ (cs : List Char) (es : Entries),
        vdf_parse cs = Outcome.ok (Value.map es) → sortedB keyLe es = true)
    ∧ (∀ (es : Entries) (k key : String) (v : Value),
        List.Pairwise (fun a b => eqic a.1 b.1 = false) es →
        (k, v) ∈ es → eqic k key = true →
        indexV (Value.map es) key = v) := by
  constructor
  · intro cs es h
    obtain ⟨es', he⟩ := vdfLoop_ok_shape _ _ _ _ _ _ h
    have : es = sortB keyLe es' := by
      simpa [Value.map.injEq] using he
    rw [this]
    exact sortedB_sortB keyLe keyLe_total es'
  · intro es k key v hdist hmem hk
    exact findIC_mem_distinct key k v es hdist hmem hk

/-- Witness for C1: the sort property at the concrete input
`"b" "1" "a" "2"`, and the lookup property on a concrete two-entry
map queried with a lower-case variant of the key `B`. -/
theorem c1_witness :
    sortedB keyLe [("a", Value.str "2"), ("b", Value.str "1")] = true
    ∧ indexV (Value.map [("a", Value.str "2"), ("B", Value.str "1")]) "b" =
        Value.str "1" :=
  ⟨c1_root_sorted_lookup.1 ("\"b\" \"1\" \"a\" \"2\"".data)
      [("a", Value.str "2"), ("b", Value.str "1")] rfl,
   c1_root_sorted_lookup.2 [("a", Value.str "2"), ("B", Value.str "1")]
      "B" "b" (Value.str "1")
      (by decide)
      (List.mem_cons_of_mem _ (List.mem_cons_self _ _)) rfl⟩

/-- C2, counterexample: an unmatched closing brace with no enclosing
block open is not reported as an invalid-data error — `stack.pop()
.unwrap()` on the empty stack panics instead. -/
theorem c2_counterexample :
    vdf_parse ("\x7d".data) = Outcome.panicked := rfl

/-- C2, amended: every error `vdf_parse` returns is the single
invalid-data error, produced for a `{` or `}` in the wrong position
while an enclosing block is open and for a bare unquoted character; but
an unmatched `}` with no open block, and an unrecognized backslash
escape inside a quoted string, abort with a panic rather than
returning the invalid-data error. -/
theorem c2_errors_and_panics :
    (∀ (cs : List Char) (e : IOErr),
        vdf_parse cs = Outcome.err e →
        e = IOErr.invalidData "unexpected token while parsing")
    ∧ vdf_parse ("\x7b".data) =
        Outcome.err (IOErr.invalidData "unexpected token while parsing")
    ∧ vdf_parse ("\"a\" \x7d".data) =
        Outcome.err (IOErr.invalidData "unexpected token while parsing")
    ∧ vdf_parse ("x".data) =
        Outcome.err (IOErr.invalidData "unexpected token while parsing")
    ∧ vdf_parse ("\x7d".data) = Outcome.panicked
    ∧ vdf_parse ("\"a\" \"\\z\"".data) = Outcome.panicked := by
  refine ⟨?_, rfl, rfl, rfl, rfl, rfl⟩
  intro cs e h
  exact vdfLoop_err_msg _ _ _ _ _ _ h

/-- Witness for C2: the error-shape property applied at the concrete
input `x`. -/
theorem c2_witness :
    IOErr.invalidData "unexpected token while parsing" =
      IOErr.invalidData "unexpected token while parsing" :=
  c2_errors_and_panics.1 ("x".data)
    (IOErr.invalidData "unexpected token while parsing") rfl

/-- C3, counterexample: the input `"a" {` opens a nested block that is
never closed, yet `vdf_parse` returns a value (the empty innermost
map) instead of failing. -/
theorem c3_counterexample :
    vdf_parse ("\"a\" \x7b".data) = Outcome.ok (Value.map []) := rfl

/-- C3, amended: when input ends while nested blocks are still open,
`vdf_parse` does not fail: it sorts and returns the innermost open map
as the root, discarding all enclosing frames — at end of input the loop
returns the current map regardless of the frame stack. -/
theorem c3_unterminated_block :
    (∀ (fuel : Nat) (stack : List (Entries × String)) (m : Entries)
        (k : Option String),
        vdfLoop fuel [] stack m k = Outcome.ok (Value.map (sortB keyLe m)))
    ∧ vdf_parse ("\"a\" \x7b \"b\" \"1\"".data) =
        Outcome.ok (Value.map [("b", Value.str "1")]) := by
  refine ⟨?_, rfl⟩
  intro fuel stack m k
  cases fuel
  · rfl
  · rfl

/-- C4, counterexample: during bulk enumeration, a read failure on a
single per-application `.acf` manifest (`L/steamapps/b.acf` here) makes
the whole `steam_apps` call fail — the `?` on `fs::read_to_string`
inside the loop propagates it — contradicting the claim that such a
file is skipped. -/
theorem c4_counterexample :
    steam_apps envC4read = Outcome.err (IOErr.ioErr "disk") := rfl

/-- C4, amended: read errors and parse errors on any single `.acf`
manifest propagate as fatal failures of the whole bulk enumeration,
exactly like errors on the library index itself; only a manifest that
reads and parses but fails field extraction is skipped while
enumeration continues. -/
theorem c4_fatal_and_skippable :
    steam_apps envC4read = Outcome.err (IOErr.ioErr "disk")
    ∧ steam_apps envC4parse =
        Outcome.err (IOErr.invalidData "unexpected token while parsing")
    ∧ steam_apps envC4lib = Outcome.err (IOErr.ioErr "disk")
    ∧ steam_apps envC4skip =
        Outcome.ok
          [{ app_id := 30, name := "G30", size_on_disk := 5,
             path := "L/steamapps/common/g30" }] :=
  ⟨rfl, rfl, rfl, rfl⟩

/-- C5, counterexample: both libraries list app id 7; the first
library's manifest fails field extraction (no `name`), and instead of
the claimed immediate not-found failure the call continues scanning
and returns the record from the second library. -/
theorem c5_counterexample :
    get_steam_app envC5 7 =
      Outcome.ok
        { app_id := 7, name := "Seven", size_on_disk := 9,
          path := "L2/steamapps/common/e7" } := rfl

/-- C5, amended: a successful extraction on a matched manifest returns
that record immediately (first success wins); a field-extraction
failure on a matched manifest does NOT terminate the lookup — the scan
continues with the remaining entries and libraries, and only when no
match anywhere succeeds does the call fail with the not-found error;
an id contained in no library fails with not-found, never a default or
empty record. -/
theorem c5_lookup_behavior :
    get_steam_app envC5first 7 =
      Outcome.ok
        { app_id := 7, name := "First", size_on_disk := 5,
          path := "L1/steamapps/common/d7" }
    ∧ get_steam_app envC5 7 =
        Outcome.ok
          { app_id := 7, name := "Seven", size_on_disk := 9,
            path := "L2/steamapps/common/e7" }
    ∧ get_steam_app envC5first 8 =
        Outcome.err (IOErr.notFound "failed to find app") :=
  ⟨rfl, rfl, rfl⟩

/-- C6: `index` on a map returns the value of the first direct child
whose key equals the query under ASCII case-insensitive comparison,
`Null` when no entry matches, and `Null` on non-map values; in
particular the queries `AppState`, `appstate` and `APPSTATE` all
retrieve the same child of a map containing key `AppState`. -/
theorem c6_index_contract :
    (∀ (key k : String) (v : Value) (pre post : Entries),
        eqic k key = true → (∀ p ∈ pre, eqic p.1 key = false) →
        indexV (Value.map (pre ++ (k, v) :: post)) key = v)
    ∧ (∀ (key : String) (es : Entries),
        (∀ p ∈ es, eqic p.1 key = false) →
        indexV (Value.map es) key = Value.null)
    ∧ (∀ (key s : String), indexV (Value.str s) key = Value.null)
    ∧ (∀ key, indexV Value.null key = Value.null)
    ∧ (∀ (v : Value) (es : Entries),
        indexV (Value.map (("AppState", v) :: es)) "appstate" = v
        ∧ indexV (Value.map (("AppState", v) :: es)) "APPSTATE" = v
        ∧ indexV (Value.map (("AppState", v) :: es)) "AppState" = v) := by
  refine ⟨?_, ?_, fun _ _ => rfl, fun _ => rfl, fun v es => ⟨rfl, rfl, rfl⟩⟩
  · intro key k v pre post hk hpre
    exact findIC_append_first key k v pre post hk hpre
  · intro key es hes
    exact findIC_not_mem key es hes

/-- Witness for C6: first-match lookup on a concrete map whose second
entry matches the query case-insensitively, and null on a concrete map
with no matching entry. -/
theorem c6_witness :
    indexV (Value.map [("a", Value.null), ("B", Value.str "x")]) "b" =
      Value.str "x"
    ∧ indexV (Value.map [("a", Value.null)]) "b" = Value.null :=
  ⟨c6_index_contract.1 "b" "B" (Value.str "x") [("a", Value.null)] [] rfl
      (by decide),
   c6_index_contract.2.1 "b" [("a", Value.null)] (by decide)⟩

/-- C7: with three `.acf` files of which one lacks `SizeOnDisk`, bulk
enumeration returns exactly the two records whose four projections all
succeed — the malformed manifest is skipped without aborting — and
every successful bulk enumeration is sorted ascending by numeric
`app_id`. -/
theorem c7_skip_and_sorted :
    steam_apps envC7 =
      Outcome.ok
        [{ app_id := 10, name := "G10", size_on_disk := 7,
           path := "L/steamapps/common/g10" },
         { app_id := 30, name := "G30", size_on_disk := 5,
           path := "L/steamapps/common/g30" }]
    ∧ (∀ (env : Env) (l : List App),
        steam_apps env = Outcome.ok l → sortedB appLe l = true) := by
  exact ⟨rfl, fun env l h => steam_apps_ok_sorted env l h⟩

/-- Witness for C7: the sortedness property applied to the concrete
enumeration of `envC7`. -/
theorem c7_witness :
    sortedB appLe
      [{ app_id := 10, name := "G10", size_on_disk := 7,
         path := "L/steamapps/common/g10" },
       { app_id := 30, name := "G30", size_on_disk := 5,
         path := "L/steamapps/common/g30" }] = true :=
  c7_skip_and_sorted.2 envC7 _ rfl

/-- C8: each supported escape decodes to its literal character —
parsing `"AppState" { "name" "\\" }` yields a single backslash for
`as_str`, and `\"`, `\r`, `\n` decode to quote, carriage return and
newline respectively. -/
theorem c8_escape_decoding :
    vdf_parse ("\"AppState\" \x7b \"name\" \"\\\\\" \x7d".data) =
      Outcome.ok
        (Value.map [("AppState", Value.map [("name", Value.str "\\")])])
    ∧ asStr (indexV (indexV
        (Value.map [("AppState", Value.map [("name", Value.str "\\")])])
        "AppState") "name") = some "\\"
    ∧ vdf_parse ("\"k\" \"a\\\"b\"".data) =
        Outcome.ok (Value.map [("k", Value.str "a\"b")])
    ∧ vdf_parse ("\"k\" \"a\\rb\"".data) =
        Outcome.ok (Value.map [("k", Value.str "a\rb")])
    ∧ vdf_parse ("\"k\" \"a\\nb\"".data) =
        Outcome.ok (Value.map [("k", Value.str "a\nb")]) :=
  ⟨rfl, rfl, rfl, rfl, rfl⟩

/-- C9: when the input ends before a closing double quote, the string
token is silently taken to be the entire remaining text (escapes still
decoded) and no error is raised. -/
theorem c9_unterminated_string :
    (∀ (cs acc : List Char), '"' ∉ cs → '\\' ∉ cs →
        parseStr cs false acc = some (⟨acc ++ cs⟩, []))
    ∧ vdf_parse ("\"k\" \"ab\\ncd".data) =
        Outcome.ok (Value.map [("k", Value.str "ab\ncd")]) :=
  ⟨parseStr_runs_to_end, rfl⟩

/-- Witness for C9: the unterminated-string property at the concrete
remaining input `ab`. -/
theorem c9_witness :
    parseStr ['a', 'b'] false [] = some ("ab", []) :=
  c9_unterminated_string.1 ['a', 'b'] [] (by decide) (by decide)

/-- C10: a manifest whose `appid` or `SizeOnDisk` parses as a negative
base-10 integer is not rejected in either discovery operation; the
negative value is converted to `u64` modulo `2 ^ 64`, so `-1` yields
`18446744073709551615` (and in general a negative in-range `i64` maps
to `2 ^ 64` plus itself). -/
theorem c10_negative_ids :
    steam_apps envC10a =
      Outcome.ok
        [{ app_id := 18446744073709551615, name := "Neg",
           size_on_disk := 18446744073709551614,
           path := "L/steamapps/common/g" }]
    ∧ get_steam_app envC10b 7 =
        Outcome.ok
          { app_id := 18446744073709551615, name := "Neg",
            size_on_disk := 4, path := "L1/steamapps/common/d7" }
    ∧ (∀ i : Int, -(2 ^ 63) ≤ i → i < 0 → (toU64 i : Int) = 2 ^ 64 + i) := by
  refine ⟨rfl, rfl, ?_⟩
  intro i h1 h2
  unfold toU64
  omega

/-- Witness for C10: the modular conversion applied at `-1`. -/
theorem c10_witness : (toU64 (-1) : Int) = 2 ^ 64 + (-1) :=
  c10_negative_ids.2.2 (-1) (by decide) (by decide)
